import Mathlib

/-!
Verification of the pz-chat-log-analyzer core against its specification.

Strings are modelled as lists of characters (`Str`).  The function
`parseLog` below is a direct shallow embedding of the `parseLog` function in
`src/src/App.tsx`:

  const parseLog = (text: string) => {
    const lines = text.split('\n').filter(line => line.trim() !== '')
    setParsedMessages(lines)
  }

`splitOnChar` embeds JavaScript `String.prototype.split` with a one-character
separator (in particular `"".split('\n') = [""]` and empty segments are kept),
and `trimChars` embeds `String.prototype.trim` (removal of leading and
trailing whitespace).
-/

deriving instance DecidableEq for Except

namespace PZChat

/-- Strings as lists of characters. -/
abbrev Str := List Char

/-- JavaScript `split` on a single separator character: every occurrence of
the separator splits, empty segments are kept, and the empty string yields
one empty segment. -/
def splitOnChar (sep : Char) : Str → List Str
  | [] => [[]]
  | c :: cs =>
    if c = sep then [] :: splitOnChar sep cs
    else
      match splitOnChar sep cs with
      | [] => [[c]]
      | r :: rs => (c :: r) :: rs

/-- The whitespace characters removed by JavaScript `trim` that can occur in
log files (space, tab, line feed, carriage return, vertical tab, form feed). -/
def isJsWhitespace (c : Char) : Bool :=
  c = ' ' || c = '\t' || c = '\n' || c = '\r' || c = '\x0b' || c = '\x0c'

/-- JavaScript `trim`: drop leading and trailing whitespace. -/
def trimChars (l : Str) : Str :=
  ((l.dropWhile isJsWhitespace).reverse.dropWhile isJsWhitespace).reverse

/-- Shallow embedding of `parseLog` from `src/src/App.tsx`: split the raw
text on the LF character and keep exactly the lines that are nonempty after
trimming, verbatim and in order. -/
def parseLog (text : Str) : List Str :=
  (splitOnChar '\n' text).filter (fun line => !(trimChars line).isEmpty)

/-- Embedding of the React state update performed by the upload handler in
`src/src/App.tsx`: on a new upload the stored message list is replaced by
`parseLog` of the newly read text; the previous state is not consulted. -/
def nextState (_prev : List Str) (text : Str) : List Str :=
  parseLog text

/-- Joining a list of segments with a separator character; inverse of
`splitOnChar`. -/
def joinWith (sep : Char) : List Str → Str
  | [] => []
  | [l] => l
  | l :: ls => l ++ sep :: joinWith sep (ls)

theorem splitOnChar_ne_nil (sep : Char) (l : Str) : splitOnChar sep l ≠ [] := by
  cases l with
  | nil => simp [splitOnChar]
  | cons c cs =>
    simp only [splitOnChar]
    split
    · simp
    · cases h : splitOnChar sep cs <;> simp

theorem joinWith_splitOnChar (sep : Char) (l : Str) :
    joinWith sep (splitOnChar sep l) = l := by
  induction l with
  | nil => rfl
  | cons c cs ih =>
    simp only [splitOnChar]
    by_cases h : c = sep
    · subst h
      simp only [if_pos rfl]
      cases hs : splitOnChar c cs with
      | nil => exact absurd hs (splitOnChar_ne_nil c cs)
      | cons r rs =>
        rw [hs] at ih
        simp only [joinWith]
        rw [ih]
        simp
    · rw [if_neg h]
      cases hs : splitOnChar sep cs with
      | nil => exact absurd hs (splitOnChar_ne_nil sep cs)
      | cons r rs =>
        rw [hs] at ih
        cases rs with
        | nil =>
          simp only [joinWith] at ih ⊢
          rw [ih]
        | cons r2 rs2 =>
          simp only [joinWith] at ih ⊢
          rw [List.cons_append, ih]

theorem sep_not_mem_splitOnChar (sep : Char) (l : Str) :
    ∀ p ∈ splitOnChar sep l, sep ∉ p := by
  induction l with
  | nil =>
    intro p hp
    simp [splitOnChar] at hp
    simp [hp]
  | cons c cs ih =>
    intro p hp
    simp only [splitOnChar] at hp
    by_cases h : c = sep
    · rw [if_pos h] at hp
      rcases List.mem_cons.mp hp with h1 | h2
      · simp [h1]
      · exact ih p h2
    · rw [if_neg h] at hp
      cases hs : splitOnChar sep cs with
      | nil => exact absurd hs (splitOnChar_ne_nil sep cs)
      | cons r rs =>
        rw [hs] at hp
        rcases List.mem_cons.mp hp with h1 | h2
        · subst h1
          intro hmem
          rcases List.mem_cons.mp hmem with h3 | h4
          · exact h h3.symm
          · exact ih r (hs ▸ List.mem_cons_self r rs) h4
        · exact ih p (hs ▸ List.mem_cons_of_mem r h2)

/-! ### Numeric and timestamp helpers for the line grammar

The line grammar (spec section 4.1) requires a timestamp of the form
`DD-MM-YY HH:mm:ss.SSS`, interpreted as UTC with the two-digit year mapped to
`20YY`.  We model an absolute instant as the signed number of milliseconds
since the Unix epoch. -/

/-- Break a string at the first occurrence of a separator character,
returning the part before it and the part after it; `none` when the
separator does not occur. -/
def breakAtChar (sep : Char) : Str → Option (Str × Str)
  | [] => none
  | c :: cs =>
    if c = sep then some ([], cs)
    else (breakAtChar sep cs).map (fun p => (c :: p.1, p.2))

/-- Parse a nonempty all-digit string into a natural number. -/
def parseNatDigits (s : Str) : Option Nat :=
  if s ≠ [] ∧ s.all Char.isDigit then
    some (s.foldl (fun acc c => 10 * acc + (c.toNat - 48)) 0)
  else none

/-- Gregorian leap-year test. -/
def isLeapYear (y : Nat) : Bool :=
  (y % 4 == 0 && y % 100 != 0) || y % 400 == 0

/-- Number of days in a month of a given year (0 for an invalid month). -/
def daysInMonth (y m : Nat) : Nat :=
  match m with
  | 1 => 31
  | 2 => if isLeapYear y then 29 else 28
  | 3 => 31
  | 4 => 30
  | 5 => 31
  | 6 => 30
  | 7 => 31
  | 8 => 31
  | 9 => 30
  | 10 => 31
  | 11 => 30
  | 12 => 31
  | _ => 0

/-- Number of leap years in the interval `[1, n]`. -/
def leapsUpTo (n : Nat) : Nat :=
  n / 4 - n / 100 + n / 400

/-- Days from 1970-01-01 to the first day of year `y` (for `y ≥ 1970`). -/
def daysBeforeYear (y : Nat) : Nat :=
  (y - 1970) * 365 + (leapsUpTo (y - 1) - leapsUpTo 1969)

/-- Days from the first of January to the first day of month `m` in year
`y`. -/
def daysBeforeMonth (y m : Nat) : Nat :=
  ((List.range (m - 1)).map (fun i => daysInMonth y (i + 1))).sum

/-- Unix epoch milliseconds of the UTC instant given by a civil date and
time of day (valid for years from 1970 on, which covers the `20YY` years of
the grammar). -/
def utcMillis (y mo d h mi s ms : Nat) : Int :=
  (((((daysBeforeYear y + daysBeforeMonth y mo + (d - 1)) * 24 + h) * 60
      + mi) * 60 + s) * 1000 + ms : Nat)

/-- Modelled from the spec: the timestamp grammar `DD-MM-YY HH:mm:ss.SSS`
of section 4.1, interpreted as the UTC instant `20YY-MM-DD HH:mm:ss.SSS`.
Returns the epoch milliseconds, or `none` when the fields do not form a
valid calendar instant (wrong digit counts, month outside 1..12, day outside
the month, hour above 23, or minute/second above 59). -/
def parseTimestamp (s : Str) : Option Int :=
  match breakAtChar '-' s with
  | none => none
  | some (ddS, r1) =>
    match breakAtChar '-' r1 with
    | none => none
    | some (moS, r2) =>
      match breakAtChar ' ' r2 with
      | none => none
      | some (yyS, r3) =>
        match breakAtChar ':' r3 with
        | none => none
        | some (hhS, r4) =>
          match breakAtChar ':' r4 with
          | none => none
          | some (miS, r5) =>
            match breakAtChar '.' r5 with
            | none => none
            | some (ssS, msS) =>
              if ddS.length = 2 ∧ moS.length = 2 ∧ yyS.length = 2 ∧
                  hhS.length = 2 ∧ miS.length = 2 ∧ ssS.length = 2 ∧
                  msS.length = 3 then
                match parseNatDigits ddS, parseNatDigits moS,
                    parseNatDigits yyS, parseNatDigits hhS,
                    parseNatDigits miS, parseNatDigits ssS,
                    parseNatDigits msS with
                | some dd, some mo, some yy, some hh, some mi, some ss,
                    some ms =>
                  if 1 ≤ mo ∧ mo ≤ 12 ∧ 1 ≤ dd ∧
                      dd ≤ daysInMonth (2000 + yy) mo ∧
                      hh ≤ 23 ∧ mi ≤ 59 ∧ ss ≤ 59 then
                    some (utcMillis (2000 + yy) mo dd hh mi ss ms)
                  else none
                | _, _, _, _, _, _, _ => none
              else none

/-- Parse a signed decimal integer (optional sign, then digits), after
trimming surrounding whitespace. -/
def parseIntStr (s : Str) : Option Int :=
  match trimChars s with
  | '-' :: ds => (parseNatDigits ds).map (fun n => -(n : Int))
  | '+' :: ds => (parseNatDigits ds).map (fun n => (n : Int))
  | ds => (parseNatDigits ds).map (fun n => (n : Int))

/-- Parse an unsigned decimal numeral with an optional fractional part into
a rational number. -/
def parseUnsignedRat (s : Str) : Option Rat :=
  match breakAtChar '.' s with
  | none => (parseNatDigits s).map (fun n => (n : Rat))
  | some (ip, fp) => do
    let n ← parseNatDigits ip
    let f ← parseNatDigits fp
    some ((n : Rat) + (f : Rat) / ((10 : Rat) ^ fp.length))

/-- Parse a signed decimal numeral (spec: coordinates "parse as numeric"),
after trimming surrounding whitespace. -/
def parseRatStr (s : Str) : Option Rat :=
  match trimChars s with
  | '-' :: ds => (parseUnsignedRat ds).map (fun q => -q)
  | '+' :: ds => parseUnsignedRat ds
  | ds => parseUnsignedRat ds

/-! ### Data model and line parser

Modelled from the spec: the repository's source only keeps raw lines
(`parseLog` above); the LineParser that turns one line into a typed record or
a classified failure is specified in sections 3, 4.1 and 7 of the spec but is
not present under `src/`.  The definitions below follow the spec's grammar
prose. -/

/-- Modelled from the spec (section 3): one successfully parsed chat line.
The timestamp is an absolute UTC instant in epoch milliseconds. -/
structure ChatLogRecord where
  timestamp : Int
  user : Str
  nickname : Option Str
  latitude : Option Rat
  longitude : Option Rat
  floor : Option Int
  language : Option Str
  messageType : Option Str
  message : Str
deriving DecidableEq, Repr

/-- Modelled from the spec (section 7): the four per-line failure reasons. -/
inductive FailureReason where
  | MALFORMED_STRUCTURE
  | INVALID_TIMESTAMP
  | INVALID_COORDINATE
  | EMPTY_USER
deriving DecidableEq, Repr

/-- Scan the head of the after-timestamp text up to the first `(`, `@` or
`:`; returns the scanned prefix (the user field) and the remainder starting
at that delimiter (or `[]` if none occurs). -/
def scanHead : Str → (Str × Str)
  | [] => ([], [])
  | c :: cs =>
    if c = '(' ∨ c = '@' ∨ c = ':' then ([], c :: cs)
    else
      let p := scanHead cs
      (c :: p.1, p.2)

/-- Word characters, as in the `\w` class used by the lang-tag grammar. -/
def isWordChar (c : Char) : Bool :=
  c.isAlphanum || c = '_'

/-- Modelled from the spec (section 4.1): split the after-colon text into the
optional bracketed language tag and the raw message portion. -/
def extractLanguage (rest : Str) : Option Str × Str :=
  match rest.dropWhile isJsWhitespace with
  | '[' :: r =>
    match breakAtChar ']' r with
    | some (tag, after) =>
      if tag ≠ [] ∧ tag.all isWordChar then (some tag, after) else (none, rest)
    | none => (none, rest)
  | _ => (none, rest)

/-- Modelled from the spec (section 4.1): message-type extraction.  If the
trimmed raw message begins with `/` immediately followed by at least one
non-whitespace character, that token (with its leading `/`) becomes the
message type and is stripped, with following whitespace, from the message;
otherwise the message type is absent and the message is the trimmed raw
text. -/
def extractMessageType (raw : Str) : Option Str × Str :=
  let m := trimChars raw
  match m with
  | '/' :: _ =>
    let tok := m.takeWhile (fun c => !(isJsWhitespace c))
    if 2 ≤ tok.length then (some tok, trimChars (m.drop tok.length))
    else (none, m)
  | _ => (none, m)

/-- Assemble the record once the line structure has been recognized,
performing the field validations of spec section 4.1: a mandatory valid
timestamp (`INVALID_TIMESTAMP`), numeric coordinates and integer floor
(`INVALID_COORDINATE`), and a user that is nonempty after trimming
(`EMPTY_USER`). -/
def finishRecord (tsRaw userRaw : Str) (nick : Option Str)
    (loc : Option (Str × Str × Str)) (rest : Str) :
    Except FailureReason ChatLogRecord :=
  match parseTimestamp tsRaw with
  | none => .error .INVALID_TIMESTAMP
  | some ts =>
    let coords : Option (Option (Rat × Rat × Int)) :=
      match loc with
      | none => some none
      | some (latRaw, lngRaw, floorRaw) =>
        match parseRatStr latRaw, parseRatStr lngRaw, parseIntStr floorRaw with
        | some la, some ln, some fl => some (some (la, ln, fl))
        | _, _, _ => none
    match coords with
    | none => .error .INVALID_COORDINATE
    | some c =>
      match trimChars userRaw with
      | [] => .error .EMPTY_USER
      | u =>
        let lm := extractLanguage rest
        let tm := extractMessageType lm.2
        .ok
          { timestamp := ts
            user := u
            nickname := nick
            latitude := c.map (fun t => t.1)
            longitude := c.map (fun t => t.2.1)
            floor := c.map (fun t => t.2.2)
            language := lm.1
            messageType := tm.1
            message := tm.2 }

/-- Modelled from the spec (section 4.1): the location clause
`<lat>,<lng>,<floor>:` after an `@`. -/
def parseLocation (tsRaw userRaw : Str) (nick : Option Str) (s : Str) :
    Except FailureReason ChatLogRecord :=
  match breakAtChar ',' s with
  | none => .error .MALFORMED_STRUCTURE
  | some (latRaw, s2) =>
    match breakAtChar ',' s2 with
    | none => .error .MALFORMED_STRUCTURE
    | some (lngRaw, s3) =>
      match breakAtChar ':' s3 with
      | none => .error .MALFORMED_STRUCTURE
      | some (floorRaw, s4) =>
        finishRecord tsRaw userRaw nick (some (latRaw, lngRaw, floorRaw)) s4

/-- After the optional parenthesized nickname: whitespace, then either the
`@`-location clause or directly the colon of the without-location shape. -/
def parseAfterName (tsRaw userRaw : Str) (nick : Option Str) (s : Str) :
    Except FailureReason ChatLogRecord :=
  match s.dropWhile isJsWhitespace with
  | '@' :: r => parseLocation tsRaw userRaw nick r
  | ':' :: r => finishRecord tsRaw userRaw nick none r
  | _ => .error .MALFORMED_STRUCTURE

/-- Parse the text after the closing timestamp bracket: the user field up to
`(`, `@` or `:`, then the optional nickname group, then the rest of the
grammar. -/
def parseAfterTs (tsRaw s : Str) : Except FailureReason ChatLogRecord :=
  let h := scanHead s
  match h.2 with
  | '(' :: r2 =>
    match breakAtChar ')' r2 with
    | none => .error .MALFORMED_STRUCTURE
    | some (nickRaw, r3) => parseAfterName tsRaw h.1 (some nickRaw) r3
  | '@' :: r2 => parseLocation tsRaw h.1 none r2
  | ':' :: r2 => finishRecord tsRaw h.1 none none r2
  | _ => .error .MALFORMED_STRUCTURE

/-- Modelled from the spec (section 4.1): the LineParser.  One text line is
turned into a `ChatLogRecord` or a classified `FailureReason`; the line must
open with a bracketed timestamp, and the grammar has a with-location and a
without-location shape. -/
def parseLine (line : Str) : Except FailureReason ChatLogRecord :=
  match line with
  | '[' :: r1 =>
    match breakAtChar ']' r1 with
    | none => .error .MALFORMED_STRUCTURE
    | some (tsRaw, afterTs) => parseAfterTs tsRaw afterTs
  | _ => .error .MALFORMED_STRUCTURE

/-! ### Aggregation

Modelled from the spec (section 4.2): the multi-file LogAggregator is not
present under `src/` (the source's `parseLog` handles one file's text and
keeps raw lines); the aggregator below follows the spec's words: per file,
split into lines, drop lines that are empty after trimming, run the
LineParser on every remaining line in order, and append records and
failures (tagged with file identifier and original 1-based line number) to
the running result. -/

/-- Modelled from the spec (section 3): one recorded per-line failure. -/
structure ParseFailure where
  file : Str
  lineNumber : Nat
  raw : Str
  reason : FailureReason
deriving DecidableEq, Repr

/-- Modelled from the spec (section 3): ordered records plus ordered
failures. -/
structure AggregationResult where
  records : List ChatLogRecord
  failures : List ParseFailure
deriving DecidableEq, Repr

/-- The lines of one file that reach the LineParser: every line paired with
its original 1-based line number, blank-after-trim lines removed. -/
def fileLines (text : Str) : List (Nat × Str) :=
  (List.enumFrom 1 (splitOnChar '\n' text)).filter
    (fun p => !(trimChars p.2).isEmpty)

/-- Append the parse outcome of one numbered line to the running result. -/
def appendLine (name : Str) (a : AggregationResult) (p : Nat × Str) :
    AggregationResult :=
  match parseLine p.2 with
  | .ok r => { a with records := a.records ++ [r] }
  | .error e => { a with failures := a.failures ++ [⟨name, p.1, p.2, e⟩] }

/-- Process one (file identifier, raw text) pair against the running
result. -/
def processFile (a : AggregationResult) (f : Str × Str) : AggregationResult :=
  (fileLines f.2).foldl (appendLine f.1) a

/-- Modelled from the spec (section 4.2): the LogAggregator over an ordered
sequence of (file identifier, raw text) pairs. -/
def aggregate (files : List (Str × Str)) : AggregationResult :=
  files.foldl processFile ⟨[], []⟩

/-- The records produced by a list of lines, in order. -/
def lineRecords (ls : List Str) : List ChatLogRecord :=
  ls.filterMap (fun l => (parseLine l).toOption)

/-- The records one file contributes, in in-file line order. -/
def fileRecords (text : Str) : List ChatLogRecord :=
  lineRecords ((fileLines text).map Prod.snd)

/-- The failures one file contributes, in in-file line order. -/
def fileFailures (name : Str) (text : Str) : List ParseFailure :=
  (fileLines text).filterMap (fun p =>
    match parseLine p.2 with
    | .error e => some ⟨name, p.1, p.2, e⟩
    | .ok _ => none)

/-! ### Filter engine

Modelled from the spec (sections 3 and 4.3): the FilterEngine is not present
under `src/`; the definitions follow the spec's per-facet semantics.  The
radius facet is encoded without square roots: for a nonnegative radius the
condition `sqrt d2 ≤ radius` is equivalent to `d2 ≤ radius ^ 2`, and for a
negative radius it never holds; the bridging theorem for claim C7 proves
this encoding equal to the spec's Euclidean-distance formulation. -/

/-- Modelled from the spec: the radius facet (center, max distance, optional
floor constraint). -/
structure RadiusSpec where
  centerLat : Rat
  centerLng : Rat
  radius : Rat
  floor : Option Int
deriving DecidableEq, Repr

/-- Modelled from the spec (section 3): a filter specification with
independently optional facets; an absent or empty facet imposes no
constraint. -/
structure FilterSpecification where
  users : List Str
  dateStart : Option Int
  dateEnd : Option Int
  radius : Option RadiusSpec
  languages : List Str
  messageTypes : List Str
  searchText : Str
deriving DecidableEq, Repr

/-- The specification in which every facet is absent or empty. -/
def emptySpec : FilterSpecification :=
  { users := []
    dateStart := none
    dateEnd := none
    radius := none
    languages := []
    messageTypes := []
    searchText := [] }

/-- Contiguous-substring test on character lists (JavaScript `includes`). -/
def containsSub (pat : Str) : Str → Bool
  | [] => pat.isEmpty
  | c :: cs => List.isPrefixOf pat (c :: cs) || containsSub pat cs

/-- Lower-casing for the case-insensitive text search. -/
def lowerStr (s : Str) : Str := s.map Char.toLower

/-- Users facet: exact-string membership; an empty set means no
constraint. -/
def usersOk (spec : FilterSpecification) (r : ChatLogRecord) : Bool :=
  spec.users.isEmpty || spec.users.contains r.user

/-- Date-range facet: inclusive on both ends, each bound optional. -/
def dateOk (spec : FilterSpecification) (r : ChatLogRecord) : Bool :=
  (match spec.dateStart with
   | none => true
   | some s => decide (s ≤ r.timestamp)) &&
  (match spec.dateEnd with
   | none => true
   | some e => decide (r.timestamp ≤ e))

/-- Radius facet applied to one record: coordinates must be present, the
squared Euclidean distance must be at most the squared (nonnegative) radius,
and the optional floor constraint must match exactly. -/
def radiusOk (rs : RadiusSpec) (r : ChatLogRecord) : Bool :=
  match r.latitude, r.longitude with
  | some lat, some lng =>
    decide (0 ≤ rs.radius) &&
    decide ((lat - rs.centerLat) ^ 2 + (lng - rs.centerLng) ^ 2 ≤
      rs.radius ^ 2) &&
    (match rs.floor with
     | none => true
     | some f => r.floor == some f)
  | _, _ => false

/-- Radius facet: no constraint when absent. -/
def radiusFacetOk (spec : FilterSpecification) (r : ChatLogRecord) : Bool :=
  match spec.radius with
  | none => true
  | some rs => radiusOk rs r

/-- Languages facet: membership; a record with no language is excluded by a
nonempty set. -/
def langOk (spec : FilterSpecification) (r : ChatLogRecord) : Bool :=
  spec.languages.isEmpty ||
    (match r.language with
     | some l => spec.languages.contains l
     | none => false)

/-- Message-types facet: membership; a record with no message type is
excluded by a nonempty set. -/
def typeOk (spec : FilterSpecification) (r : ChatLogRecord) : Bool :=
  spec.messageTypes.isEmpty ||
    (match r.messageType with
     | some t => spec.messageTypes.contains t
     | none => false)

/-- Search facet: case-insensitive substring match against the message
only. -/
def searchOk (spec : FilterSpecification) (r : ChatLogRecord) : Bool :=
  spec.searchText.isEmpty ||
    containsSub (lowerStr spec.searchText) (lowerStr r.message)

/-- Conjunction of all facets. -/
def matchesFilter (spec : FilterSpecification) (r : ChatLogRecord) : Bool :=
  usersOk spec r && dateOk spec r && radiusFacetOk spec r &&
    langOk spec r && typeOk spec r && searchOk spec r

/-- Modelled from the spec (section 4.3): the FilterEngine, a stable filter
of the record sequence by the conjunction of the active facets. -/
def evaluate (records : List ChatLogRecord) (spec : FilterSpecification) :
    List ChatLogRecord :=
  records.filter (matchesFilter spec)

/-! ### Chat-markdown (Discord) exporter

Modelled from the spec (section 4.4): the Exporter is not present under
`src/`; the serializer below follows the spec's two-line template, with the
epoch-seconds value being the record's timestamp truncated to whole
seconds. -/

/-- Truncation of an epoch-milliseconds instant to whole epoch seconds
(JavaScript `Math.floor(date.getTime() / 1000)`). -/
def epochSeconds (ms : Int) : Int := Int.fdiv ms 1000

/-- Decimal digits of a natural number. -/
def natToStr (n : Nat) : Str := Nat.toDigits 10 n

/-- Decimal representation of an integer. -/
def intToStr (n : Int) : Str :=
  if n < 0 then '-' :: natToStr n.natAbs else natToStr n.natAbs

/-- Decimal digits of the fraction `rem / den` (with `rem < den`), computed
by long division to at most the given number of places (log coordinates are
decimal literals, whose expansions terminate). -/
def fracDigits : Nat → Nat → Nat → Str
  | 0, _, _ => []
  | fuel + 1, rem, den =>
    if rem = 0 then []
    else
      Char.ofNat (48 + (rem * 10) / den) ::
        fracDigits fuel ((rem * 10) % den) den

/-- Decimal representation of a rational number as a plain numeral (integer
part, then a fractional part only when it is nonzero). -/
def ratToStr (q : Rat) : Str :=
  let n := q.num.natAbs
  (if q.num < 0 then ['-'] else []) ++ natToStr (n / q.den) ++
    (if (n % q.den) = 0 then [] else '.' :: fracDigits 20 (n % q.den) q.den)

/-- The coordinate segment of the first template line, omitted together
with its separator and backticks when coordinates are absent. -/
def coordSegment (r : ChatLogRecord) : Str :=
  match r.latitude, r.longitude, r.floor with
  | some la, some ln, some fl =>
    (" - `").data ++ ratToStr la ++ [','] ++ ratToStr ln ++ [','] ++
      intToStr fl ++ ("`").data
  | _, _, _ => []

/-- First line of the Discord block: user, platform timestamp token with the
truncated epoch seconds, and the optional coordinate segment. -/
def discordLine1 (r : ChatLogRecord) : Str :=
  ("> -# ").data ++ r.user ++ (" <t:").data ++
    intToStr (epochSeconds r.timestamp) ++ (":f>").data ++ coordSegment r

/-- The present segments of the second template line: optional bracketed
language, optional message type, and the message when nonempty. -/
def discordSegments (r : ChatLogRecord) : List Str :=
  (match r.language with
   | some l => [['['] ++ l ++ [']']]
   | none => []) ++
  (match r.messageType with
   | some t => [t]
   | none => []) ++
  (if r.message.isEmpty then [] else [r.message])

/-- Second line of the Discord block: the present segments, italicized,
separated by single spaces. -/
def discordLine2 (r : ChatLogRecord) : Str :=
  ("> *").data ++ joinWith ' ' (discordSegments r) ++ ("*").data

/-- The two-line Discord block of one record. -/
def discordBlock (r : ChatLogRecord) : Str :=
  discordLine1 r ++ '\n' :: discordLine2 r

/-- Bulk Discord export: newline-joined blocks in subset order. -/
def discordExport (rs : List ChatLogRecord) : Str :=
  joinWith '\n' (rs.map discordBlock)

/-- The spec's Example 1 input line. -/
def exampleLine : Str :=
  ("[10-11-25 21:29:30.123] Rota Lyashko (Rota) @ 5776,11056,0: [en] /say -, no, - no, - I believe you.").data

/-- The record the spec's Example 1 line parses to. -/
def exampleRecord : ChatLogRecord :=
  { timestamp := 1762810170123
    user := ("Rota Lyashko").data
    nickname := some (("Rota").data)
    latitude := some 5776
    longitude := some 11056
    floor := some 0
    language := some (("en").data)
    messageType := some (("/say").data)
    message := ("-, no, - no, - I believe you.").data }

/-! ### Supporting lemmas -/

theorem mem_parseLog (text l : Str) :
    l ∈ parseLog text ↔ (l ∈ splitOnChar '\n' text ∧ trimChars l ≠ []) := by
  simp [parseLog, List.mem_filter, List.isEmpty_iff]

theorem map_snd_filter_enumFrom (p : Str → Bool) (n : Nat) (ls : List Str) :
    ((List.enumFrom n ls).filter (fun q => p q.2)).map Prod.snd =
      ls.filter p := by
  induction ls generalizing n with
  | nil => rfl
  | cons a as ih =>
    simp only [List.enumFrom, List.filter]
    cases h : p a with
    | true => simp only [List.map_cons, ih]
    | false => exact ih (n + 1)

theorem fileLines_map_snd (text : Str) :
    (fileLines text).map Prod.snd = parseLog text :=
  map_snd_filter_enumFrom (fun l => !(trimChars l).isEmpty) 1
    (splitOnChar '\n' text)

/-! ### Claims about the line parser -/

/-- C1: the spec's Example 1 line parses to a record with user
"Rota Lyashko", nickname "Rota", latitude 5776, longitude 11056, floor 0,
language "en", message type "/say", message "-, no, - no, - I believe you.",
and timestamp equal to the UTC instant 2025-11-10T21:29:30.123Z (epoch
milliseconds 1762810170123). -/
theorem C1_example_line_parses :
    parseLine exampleLine = Except.ok exampleRecord ∧
    exampleRecord.user = ("Rota Lyashko").data ∧
    exampleRecord.nickname = some (("Rota").data) ∧
    exampleRecord.latitude = some 5776 ∧
    exampleRecord.longitude = some 11056 ∧
    exampleRecord.floor = some 0 ∧
    exampleRecord.language = some (("en").data) ∧
    exampleRecord.messageType = some (("/say").data) ∧
    exampleRecord.message = ("-, no, - no, - I believe you.").data ∧
    exampleRecord.timestamp = utcMillis 2025 11 10 21 29 30 123 ∧
    exampleRecord.timestamp = 1762810170123 := by
  decide

/-- C2: the line parser is a total function of the line and always returns
either a record or a failure whose reason is one of MALFORMED_STRUCTURE,
INVALID_TIMESTAMP, INVALID_COORDINATE, EMPTY_USER. -/
theorem C2_parseLine_total_classified (line : Str) :
    (∃ r, parseLine line = Except.ok r) ∨
    parseLine line = Except.error FailureReason.MALFORMED_STRUCTURE ∨
    parseLine line = Except.error FailureReason.INVALID_TIMESTAMP ∨
    parseLine line = Except.error FailureReason.INVALID_COORDINATE ∨
    parseLine line = Except.error FailureReason.EMPTY_USER := by
  cases h : parseLine line with
  | ok r => exact Or.inl ⟨r, rfl⟩
  | error e => cases e <;> simp

/-- C3: lines that are empty after trimming are discarded before parsing
(they contribute neither a record nor a failure), and every other line is
kept verbatim, in in-file order, and handed to the parser: the parsed-line
sequence of the aggregation step is exactly `parseLog`'s retained-line
sequence. -/
theorem C3_blank_lines_discarded (text : Str) :
    (∀ l : Str, l ∈ parseLog text ↔
      (l ∈ splitOnChar '\n' text ∧ trimChars l ≠ [])) ∧
    (parseLog text).Sublist (splitOnChar '\n' text) ∧
    (fileLines text).map Prod.snd = parseLog text ∧
    (∀ p ∈ fileLines text, trimChars p.2 ≠ []) := by
  refine ⟨mem_parseLog text, List.filter_sublist _, fileLines_map_snd text, ?_⟩
  intro p hp
  have h2 : p.2 ∈ parseLog text := by
    rw [← fileLines_map_snd text]
    exact List.mem_map_of_mem Prod.snd hp
  exact ((mem_parseLog text p.2).mp h2).2

theorem C3_blank_lines_discarded_witness :
    trimChars (("alpha").data) ≠ [] :=
  (C3_blank_lines_discarded (("alpha\n \n").data)).2.2.2
    (1, ("alpha").data) (by decide)

/-- C10: parseLog is deterministic and total: equal inputs give equal
outputs, every input yields an output, and the empty string yields the empty
list. -/
theorem C10_parseLog_deterministic_total :
    (∀ t1 t2 : Str, t1 = t2 → parseLog t1 = parseLog t2) ∧
    (∀ t : Str, ∃ out : List Str, parseLog t = out) ∧
    parseLog [] = [] :=
  ⟨fun _ _ h => h ▸ rfl, fun t => ⟨parseLog t, rfl⟩, rfl⟩

theorem C10_parseLog_deterministic_total_witness :
    parseLog (("x\n\ny").data) = parseLog (("x\n\ny").data) :=
  C10_parseLog_deterministic_total.1 (("x\n\ny").data) (("x\n\ny").data) rfl

/-- C9: parseLog splits its input only on the LF character and stores each
retained line verbatim and untrimmed: joining the split segments with LF
recovers the input exactly, no stored segment contains an LF, every retained
line is one of the split segments, and a CRLF-terminated input keeps the
trailing CR (and surrounding spaces) on every stored line. -/
theorem C9_parseLog_splits_only_on_LF :
    (∀ text : Str, joinWith '\n' (splitOnChar '\n' text) = text) ∧
    (∀ text : Str, ∀ p ∈ splitOnChar '\n' text, '\n' ∉ p) ∧
    (∀ text : Str, ∀ l ∈ parseLog text, l ∈ splitOnChar '\n' text) ∧
    parseLog (("line one \r\nline two\r\n").data) =
      [("line one \r").data, ("line two\r").data] := by
  refine ⟨joinWith_splitOnChar '\n', sep_not_mem_splitOnChar '\n', ?_, by decide⟩
  intro text l hl
  exact ((mem_parseLog text l).mp hl).1

theorem C9_parseLog_splits_only_on_LF_witness :
    '\n' ∉ (("ab").data) :=
  C9_parseLog_splits_only_on_LF.2.1 (("ab\ncd").data) (("ab").data) (by decide)

/-- C5: processing a new upload batch replaces the stored result wholesale:
the state produced by the upload handler does not depend on the previously
stored state, only on the new batch's text. -/
theorem C5_upload_replaces_state (prev1 prev2 : List Str) (text : Str) :
    nextState prev1 text = nextState prev2 text ∧
    nextState prev1 text = parseLog text :=
  ⟨rfl, rfl⟩

/-! ### Claims about the aggregator -/

theorem foldl_appendLine (name : Str) (ls : List (Nat × Str))
    (a : AggregationResult) :
    ls.foldl (appendLine name) a =
      ⟨a.records ++ lineRecords (ls.map Prod.snd),
       a.failures ++ ls.filterMap (fun p =>
         match parseLine p.2 with
         | .error e => some ⟨name, p.1, p.2, e⟩
         | .ok _ => none)⟩ := by
  induction ls generalizing a with
  | nil => simp [lineRecords]
  | cons p ps ih =>
    rw [List.foldl_cons, ih]
    cases h : parseLine p.2 with
    | ok r =>
      simp [appendLine, h, lineRecords, List.filterMap_cons, Except.toOption]
    | error e =>
      simp [appendLine, h, lineRecords, List.filterMap_cons, Except.toOption]

theorem processFile_spec (a : AggregationResult) (f : Str × Str) :
    processFile a f =
      ⟨a.records ++ fileRecords f.2, a.failures ++ fileFailures f.1 f.2⟩ :=
  foldl_appendLine f.1 (fileLines f.2) a

theorem aggregate_foldl (files : List (Str × Str)) (a : AggregationResult) :
    files.foldl processFile a =
      ⟨a.records ++ files.flatMap (fun f => fileRecords f.2),
       a.failures ++ files.flatMap (fun f => fileFailures f.1 f.2)⟩ := by
  induction files generalizing a with
  | nil => simp
  | cons f fs ih =>
    rw [List.foldl_cons, processFile_spec, ih]
    simp

/-- C4: aggregation output order is file upload order and, within a file,
in-file line order (records and failures are the per-file contributions
concatenated in order); the output is a function of the ordered input alone;
and a failing line contributes nothing while leaving every other line's
record unchanged. -/
theorem C4_aggregate_order (files : List (Str × Str)) :
    (aggregate files).records = files.flatMap (fun f => fileRecords f.2) ∧
    (aggregate files).failures =
      files.flatMap (fun f => fileFailures f.1 f.2) ∧
    (∀ files2, files = files2 → aggregate files = aggregate files2) ∧
    (∀ (pre post : List Str) (l : Str) (e : FailureReason),
      parseLine l = Except.error e →
      lineRecords (pre ++ l :: post) = lineRecords pre ++ lineRecords post) := by
  refine ⟨?_, ?_, fun _ h => h ▸ rfl, ?_⟩
  · rw [aggregate, aggregate_foldl]
    simp
  · rw [aggregate, aggregate_foldl]
    simp
  · intro pre post l e h
    simp [lineRecords, List.filterMap_append, List.filterMap_cons, h,
      Except.toOption]

theorem C4_aggregate_order_witness :
    lineRecords ([] ++ (("garbage text with no structure").data) :: []) =
      lineRecords [] ++ lineRecords [] :=
  (C4_aggregate_order []).2.2.2 [] [] (("garbage text with no structure").data)
    FailureReason.MALFORMED_STRUCTURE (by decide)

/-! ### Claims about the filter engine -/

/-- C6: evaluating with the empty filter specification is the identity. -/
theorem C6_empty_filter_identity (records : List ChatLogRecord) :
    evaluate records emptySpec = records := by
  rw [evaluate, List.filter_eq_self]
  intro r _
  simp [matchesFilter, usersOk, dateOk, radiusFacetOk, langOk, typeOk,
    searchOk, emptySpec]

theorem sqrt_le_rat_iff (x y c : Rat) :
    Real.sqrt (((x : ℝ)) ^ 2 + ((y : ℝ)) ^ 2) ≤ (c : ℝ) ↔
      (0 ≤ c ∧ x ^ 2 + y ^ 2 ≤ c ^ 2) := by
  rw [Real.sqrt_le_iff]
  constructor
  · rintro ⟨h1, h2⟩
    refine ⟨by exact_mod_cast h1, ?_⟩
    have h3 : ((x ^ 2 + y ^ 2 : Rat) : ℝ) ≤ ((c ^ 2 : Rat) : ℝ) := by
      push_cast
      exact h2
    exact_mod_cast h3
  · rintro ⟨h1, h2⟩
    refine ⟨by exact_mod_cast h1, ?_⟩
    have h3 : ((x ^ 2 + y ^ 2 : Rat) : ℝ) ≤ ((c ^ 2 : Rat) : ℝ) := by
      exact_mod_cast h2
    push_cast at h3
    exact h3

theorem matchesFilter_radius_only (rs : RadiusSpec) (r : ChatLogRecord) :
    matchesFilter { emptySpec with radius := some rs } r = radiusOk rs r := by
  simp [matchesFilter, usersOk, dateOk, radiusFacetOk, langOk, typeOk,
    searchOk, emptySpec]

theorem radiusOk_iff (rs : RadiusSpec) (r : ChatLogRecord) :
    radiusOk rs r = true ↔
      (∃ lat lng, r.latitude = some lat ∧ r.longitude = some lng ∧
        Real.sqrt (((lat : ℝ) - (rs.centerLat : ℝ)) ^ 2 +
          ((lng : ℝ) - (rs.centerLng : ℝ)) ^ 2) ≤ (rs.radius : ℝ) ∧
        (rs.floor = none ∨ r.floor = rs.floor)) := by
  cases hla : r.latitude with
  | none => simp [radiusOk, hla]
  | some lat =>
    cases hlo : r.longitude with
    | none => simp [radiusOk, hla, hlo]
    | some lng =>
      have hs := sqrt_le_rat_iff (lat - rs.centerLat) (lng - rs.centerLng)
        rs.radius
      push_cast at hs
      simp only [radiusOk, hla, hlo, Bool.and_eq_true, decide_eq_true_eq]
      constructor
      · rintro ⟨⟨hrad, hd2⟩, hfl⟩
        refine ⟨lat, lng, rfl, rfl, hs.mpr ⟨hrad, hd2⟩, ?_⟩
        cases hf : rs.floor with
        | none => exact Or.inl rfl
        | some f =>
          rw [hf] at hfl
          exact Or.inr (by simpa [beq_iff_eq] using hfl)
      · rintro ⟨lat2, lng2, hla2, hlo2, hd, hfl⟩
        injection hla2 with e1
        injection hlo2 with e2
        subst e1
        subst e2
        have hd2 := hs.mp hd
        refine ⟨⟨hd2.1, hd2.2⟩, ?_⟩
        cases hf : rs.floor with
        | none => rfl
        | some f =>
          rcases hfl with h1 | h1
          · rw [hf] at h1
            exact absurd h1 (by simp)
          · rw [hf] at h1
            simpa [beq_iff_eq] using h1

/-- C7: with the radius facet active, a record is included exactly when it
has coordinates, its Euclidean distance to the center is at most the radius
(inclusive), and the optional floor constraint matches exactly; the exact
center with radius 0 is included and a record lacking coordinates is always
excluded. -/
theorem C7_radius_facet (records : List ChatLogRecord) (rs : RadiusSpec)
    (r : ChatLogRecord) :
    (r ∈ evaluate records { emptySpec with radius := some rs } ↔
      (r ∈ records ∧
        ∃ lat lng, r.latitude = some lat ∧ r.longitude = some lng ∧
          Real.sqrt (((lat : ℝ) - (rs.centerLat : ℝ)) ^ 2 +
            ((lng : ℝ) - (rs.centerLng : ℝ)) ^ 2) ≤ (rs.radius : ℝ) ∧
          (rs.floor = none ∨ r.floor = rs.floor))) ∧
    ((r.latitude = none ∨ r.longitude = none) → radiusOk rs r = false) ∧
    (∀ clat clng : Rat, r.latitude = some clat → r.longitude = some clng →
      radiusOk ⟨clat, clng, 0, none⟩ r = true) := by
  refine ⟨?_, ?_, ?_⟩
  · rw [evaluate, List.mem_filter, matchesFilter_radius_only, radiusOk_iff]
  · intro h
    cases hla : r.latitude with
    | none => simp [radiusOk, hla]
    | some lat =>
      cases hlo : r.longitude with
      | none => simp [radiusOk, hla, hlo]
      | some lng =>
        rcases h with h1 | h1
        · rw [hla] at h1
          exact absurd h1 (by simp)
        · rw [hlo] at h1
          exact absurd h1 (by simp)
  · intro clat clng hla hlo
    simp [radiusOk, hla, hlo]

theorem C7_radius_facet_witness :
    radiusOk ⟨5776, 11056, 0, none⟩ exampleRecord = true :=
  (C7_radius_facet [] ⟨5776, 11056, 0, none⟩ exampleRecord).2.2 5776 11056
    rfl rfl

/-! ### Claim about the chat-markdown exporter -/

/-- C8: the platform timestamp token embeds the record's timestamp truncated
to whole epoch seconds (the greatest whole second at or below the instant),
and the Example-1 record serializes to exactly the two specified lines. -/
theorem C8_discord_block :
    (∀ ms : Int,
      1000 * epochSeconds ms ≤ ms ∧ ms < 1000 * epochSeconds ms + 1000) ∧
    epochSeconds exampleRecord.timestamp = 1762810170 ∧
    discordBlock exampleRecord =
      ("> -# Rota Lyashko <t:1762810170:f> - `5776,11056,0`\n> *[en] /say -, no, - no, - I believe you.*").data := by
  refine ⟨?_, by decide, by decide⟩
  intro ms
  have h : epochSeconds ms = ms / 1000 := Int.fdiv_eq_ediv ms (by decide)
  rw [h]
  omega

end PZChat
